import Mathlib

/-!
Shallow embedding of the cats-social Go backend: the cat-match service and repository,
the cat CRUD repository and handlers, the list-endpoint query-parameter filter builder,
and JWT bearer-token validation; together with theorems checking the natural-language
specification against this code. Database tables are embedded as lists of records,
transactions as explicit state passing (a service call returns the post-state: the
pre-state when it rolls back, the written state when it commits), and fallible
operations return Option/Except.
-/

namespace CatsSocial

/-- Error kinds of the domain MessageErr type (spec section 7). -/
inductive ErrKind where
  | badRequest
  | notFoundErr
  | unauthenticated
  | internalServerError
deriving Repr, DecidableEq

/-- Domain error carrying a user-facing message and a kind, as the Go MessageErr
interface exposes Message() and Status(). -/
structure MessageErr where
  msg : String
  kind : ErrKind
deriving Repr, DecidableEq

def NewBadRequest (m : String) : MessageErr := ⟨m, .badRequest⟩

def NewNotFoundError (m : String) : MessageErr := ⟨m, .notFoundErr⟩

def NewUnauthenticatedError (m : String) : MessageErr := ⟨m, .unauthenticated⟩

def NewInternalServerError (m : String) : MessageErr := ⟨m, .internalServerError⟩

/-- A row of the cats table (domain.Cat / models.Cat). UUIDs are embedded as strings. -/
structure Cat where
  id : String
  name : String
  race : String
  sex : String
  ageInMonth : Int
  description : String
  imageUrls : List String
  hasMatched : Bool
  ownedById : String
  deleted : Bool
  createdAt : Nat
deriving Repr, DecidableEq

/-- A row of the cat_matches table (domain.CatMatch). `matchCatId` is the receiver's
cat, `userCatId` the issuer's cat, `issuedBy` the issuing user (spec section 3). -/
structure CatMatch where
  id : String
  matchCatId : String
  userCatId : String
  message : String
  status : String
  issuedBy : String
  createdAt : Nat
deriving Repr, DecidableEq

/-- The relational store: the two tables the match subsystem touches. -/
structure DB where
  cats : List Cat
  catMatches : List CatMatch
deriving Repr, DecidableEq

/-- Row set of the self-join used by the pairwise predicate queries:
FROM cats c1 JOIN cats c2 ON c2.id != c1.id WHERE c1.id = $1 AND c2.id = $2. -/
def joinCatsOn (db : DB) (id1 id2 : String) : List (Cat × Cat) :=
  (db.cats.flatMap (fun c1 =>
    (db.cats.filter (fun c2 => c2.id != c1.id)).map (fun c2 => (c1, c2)))).filter
    (fun p => p.1.id == id1 && p.2.id == id2)

/-- CheckCatHasSameSex: QueryRow scans the first row of the self-join and returns
c1.sex = c2.sex; with no row (same id, or either id absent) Scan errors (`none`). -/
def CheckCatHasSameSex (db : DB) (cat1Id cat2Id : String) : Option Bool :=
  (joinCatsOn db cat1Id cat2Id).head?.map (fun p => p.1.sex == p.2.sex)

/-- CheckCatHasMatched: first row's c1.has_matched OR c2.has_matched; `none` on no row. -/
def CheckCatHasMatched (db : DB) (cat1Id cat2Id : String) : Option Bool :=
  (joinCatsOn db cat1Id cat2Id).head?.map (fun p => p.1.hasMatched || p.2.hasMatched)

/-- CheckCatFromSameOwner: first row's c1.owned_by_id = c2.owned_by_id; `none` on no row. -/
def CheckCatFromSameOwner (db : DB) (cat1Id cat2Id : String) : Option Bool :=
  (joinCatsOn db cat1Id cat2Id).head?.map (fun p => p.1.ownedById == p.2.ownedById)

/-- CheckBothCatExists: EXISTS(id = $1 AND deleted = false) AND EXISTS(id = $2 AND
deleted = false); this query always yields exactly one row. -/
def CheckBothCatExists (db : DB) (cat1Id cat2Id : String) : Option Bool :=
  some ((db.cats.any (fun c => c.id == cat1Id && c.deleted == false)) &&
        (db.cats.any (fun c => c.id == cat2Id && c.deleted == false)))

/-- Modelled from the spec: the CatMatchRepository.CreateCatMatch implementation is not
among the provided sources (only its interface and its caller are). Per spec section 4.2
it evaluates, fail-fast and in order, the predicates: both cats exist and are not
soft-deleted, the two cats differ in sex, they belong to different owners, and neither
has already matched — using the cat-repository predicate queries embedded above — and
then inserts the match row with status "waiting". A failed predicate or a query error is
a repository error (`none`); on success the inserted state is returned. -/
def repoCreateCatMatch (db : DB) (m : CatMatch) : Option DB :=
  match CheckBothCatExists db m.userCatId m.matchCatId with
  | none => none
  | some both =>
    if both == false then none else
    match CheckCatHasSameSex db m.userCatId m.matchCatId with
    | none => none
    | some sameSex =>
      if sameSex then none else
      match CheckCatFromSameOwner db m.userCatId m.matchCatId with
      | none => none
      | some sameOwner =>
        if sameOwner then none else
        match CheckCatHasMatched db m.userCatId m.matchCatId with
        | none => none
        | some matched =>
          if matched then none else
          some { db with catMatches := db.catMatches ++ [{ m with status := "waiting" }] }

/-- Service CreateCatMatch: begins a transaction, delegates to the repository, wraps any
repository failure into BadRequest "Failed to create cat match" and rolls back (the
returned state is the pre-state), otherwise commits and reports success. -/
def serviceCreateCatMatch (db : DB) (payload : CatMatch) : DB × Except MessageErr String :=
  match repoCreateCatMatch db payload with
  | none => (db, .error (NewBadRequest "Failed to create cat match"))
  | some db2 => (db2, .ok "successfully send match request")

/-- Public cat view (domain.CatResponse): exactly the fields the service mapping copies. -/
structure CatResponse where
  ID : String
  Name : String
  Race : String
  Sex : String
  AgeInMonth : Int
  Description : String
  ImageUrls : List String
  HasMatched : Bool
  CreatedAt : Nat
deriving Repr, DecidableEq

/-- Match view (domain.CatMatchResponse): the fields the service mapping sets. -/
structure CatMatchResponse where
  ID : String
  CreatedAt : Nat
  Message : String
  MatchCat : CatResponse
  UserCat : CatResponse
deriving Repr, DecidableEq

/-- A repository result row for the match listing: the match joined with both cats. -/
structure MatchRow where
  m : CatMatch
  matchCat : Cat
  userCat : Cat
deriving Repr, DecidableEq

/-- First row of SELECT ... FROM cats WHERE id = $1 (lookup of a cat row by id). -/
def findCat (db : DB) (id : String) : Option Cat :=
  db.cats.find? (fun c => c.id == id)

/-- Modelled from the spec: the CatMatchRepository.GetCatMatchesByIssuerOrReceiverID
implementation is not among the provided sources. Per spec section 4.1
(GetMatchesForParticipant) it returns all matches where the given identity is either the
issuer or the receiver (the owner of the match cat), inner-joined with both referenced
cats' public fields, and an empty sequence when none exist. -/
def repoGetCatMatchesByIssuerOrReceiverID (db : DB) (id : String) : List MatchRow :=
  db.catMatches.filterMap (fun m =>
    match findCat db m.matchCatId, findCat db m.userCatId with
    | some mc, some uc =>
      if m.issuedBy == id || mc.ownedById == id then some ⟨m, mc, uc⟩ else none
    | _, _ => none)

/-- Final disposition of a service call's transaction. -/
inductive TxEnd where
  | committed
  | rolledBack
deriving Repr, DecidableEq

/-- The service's field-by-field mapping of a joined cat row into a response view. -/
def catToResponse (c : Cat) : CatResponse :=
  { ID := c.id, Name := c.name, Race := c.race, Sex := c.sex, AgeInMonth := c.ageInMonth
  , Description := c.description, ImageUrls := c.imageUrls, HasMatched := c.hasMatched
  , CreatedAt := c.createdAt }

/-- The service's mapping of one repository row into a CatMatchResponse. -/
def rowToResponse (r : MatchRow) : CatMatchResponse :=
  { ID := r.m.id, CreatedAt := r.m.createdAt, Message := r.m.message
  , MatchCat := catToResponse r.matchCat, UserCat := catToResponse r.userCat }

/-- Service GetCatMatchesByIssuerOrReceiverID, parameterized by the repository result
(so every repository outcome, success or error, is covered): on a repository error it
returns BadRequest and the deferred Rollback ends the transaction; on success it calls
tx.Commit() and maps each row into a response view. The deferred Rollback after a
completed Commit is a no-op, so the transaction's disposition is committed. -/
def serviceGetCatMatchesByIssuerOrReceiverID (repoResult : Except Unit (List MatchRow)) :
    TxEnd × Except MessageErr (List CatMatchResponse) :=
  match repoResult with
  | .error _ => (.rolledBack, .error (NewBadRequest "Failed to get cat match"))
  | .ok rows => (.committed, .ok (rows.map rowToResponse))

/-- The full listing operation on a store: the repository read of a list never errors in
the pure embedding, so the service runs on the Ok result. -/
def getCatMatchesOnDB (db : DB) (id : String) : TxEnd × Except MessageErr (List CatMatchResponse) :=
  serviceGetCatMatchesByIssuerOrReceiverID (.ok (repoGetCatMatchesByIssuerOrReceiverID db id))

/-- Service UpdateCatMatchByID: the Go body is exactly `return nil, nil` — no transaction
is opened and no state is touched; the unchanged store is returned alongside the two nils. -/
def serviceUpdateCatMatchByID (db : DB) (id : String) (payload : CatMatch) :
    DB × Option CatMatchResponse × Option MessageErr :=
  (db, none, none)

/-- The placeholder requester identity hard-coded in the delete flow
("TODO: delete after auth api finish" in the source). -/
def hardCodedUserId : String := "e91ce26e-9a53-4c4f-b5b5-0cad1a61d82b"

/-- Modelled from the spec: CanDeleteCatMatch's implementation is not among the provided
sources. Per spec section 4.1 (CanUserDeleteMatch) it returns whether the requesting user
is the issuer of the given match, and false if the match is not found. -/
def repoCanDeleteCatMatch (db : DB) (matchId userId : String) : Bool :=
  db.catMatches.any (fun m => m.id == matchId && m.issuedBy == userId)

/-- Modelled from the spec: GetStatusCatMatchByID's implementation is not among the
provided sources. Per spec section 4.1 (GetMatchStatus) it returns the current status
string, and errors (`none`) if the match id does not exist. -/
def repoGetStatusCatMatchByID (db : DB) (matchId : String) : Option String :=
  (db.catMatches.find? (fun m => m.id == matchId)).map (fun m => m.status)

/-- Modelled from the spec: DeleteCatMatch's repository implementation is not among the
provided sources. Per spec section 4.1 it removes the match row. -/
def repoDeleteCatMatch (db : DB) (matchId : String) : DB :=
  { db with catMatches := db.catMatches.filter (fun m => m.id != matchId) }

/-- Service DeleteCatMatch, faithful to the Go source: the requester identity is the
hard-coded placeholder (the authenticated caller is ignored); authorization is checked
first (NotFound on failure), then the status gate (BadRequest unless "waiting"), then
the row is deleted and the transaction committed. On any failure the rollback leaves the
pre-state. -/
def serviceDeleteCatMatch (db : DB) (id : String) : DB × Option MessageErr :=
  let userId := hardCodedUserId
  if (repoCanDeleteCatMatch db id userId) == false then
    (db, some (NewNotFoundError "Cat match request is not found"))
  else
    match repoGetStatusCatMatchByID db id with
    | none => (db, some (NewInternalServerError "something went wrong"))
    | some status =>
      if status != "waiting" then
        (db, some (NewBadRequest "Cannot delete non waiting cat match request"))
      else
        (repoDeleteCatMatch db id, none)

/-- Repository DeleteCat: UPDATE cats SET deleted = true WHERE id = $1 — a soft delete
that flips the flag on every row with the given id and removes nothing. -/
def DeleteCat (db : DB) (catId : String) : DB :=
  { db with cats := db.cats.map (fun c =>
      if c.id == catId then { c with deleted := true } else c) }

/-- Repository UpdateCat: UPDATE cats SET name, race, sex, age_in_month, description,
image_urls WHERE id = $1 — the deleted flag, owner, match flag and timestamp are not in
the SET list and are preserved. -/
def UpdateCat (db : DB) (cat : Cat) : DB :=
  { db with cats := db.cats.map (fun c =>
      if c.id == cat.id then
        { c with name := cat.name, race := cat.race, sex := cat.sex,
                 ageInMonth := cat.ageInMonth, description := cat.description,
                 imageUrls := cat.imageUrls }
      else c) }

/-- Repository GetAllCats: SELECT ... FROM cats WHERE deleted = false AND <generated
clauses> ORDER BY created_at DESC <limit/offset clauses>. The generated filter clauses
and the bound limit/offset are taken semantically as the parameters `p`, `off` and
`lim` (the SQL-text side of the clause generation is validateGetAllCatsQueryParams
below); OFFSET applies before LIMIT. -/
def GetAllCats (db : DB) (p : Cat → Bool) (off lim : Option Nat) : List Cat :=
  let rows := (db.cats.filter (fun c => c.deleted == false && p c)).mergeSort
    (fun a b => b.createdAt ≤ a.createdAt)
  let rows := match off with | none => rows | some o => rows.drop o
  match lim with | none => rows | some l => rows.take l

/-- A subsequent write against the cats table through this repository: an UpdateCat or a
DeleteCat call. -/
inductive CatWriteOp where
  | upd (cat : Cat)
  | del (catId : String)
deriving Repr

/-- Sequencing of subsequent repository writes to the cats table. -/
def applyCatWrites (db : DB) : List CatWriteOp → DB
  | [] => db
  | .upd c :: rest => applyCatWrites (UpdateCat db c) rest
  | .del i :: rest => applyCatWrites (DeleteCat db i) rest

/-- Modelled from the spec: the models package defining the race enum is not among the
provided sources; the ten fixed breeds are pinned by the handler's BadRequest message. -/
def CatRace : List String :=
  ["Persian", "Maine Coon", "Siamese", "Ragdoll", "Bengal", "Sphynx",
   "British Shorthair", "Abyssinian", "Scottish Fold", "Birman"]

/-- Modelled from the spec: the models package defining the sex enum is not among the
provided sources; the two values are pinned by the handler's BadRequest message. -/
def CatSex : List String := ["male", "female"]

/-- The JSON body bound by the add-cat handler (models.NewCat fills id and createdAt). -/
structure CatBody where
  id : String
  createdAt : Nat
  name : String
  race : String
  sex : String
  ageInMonth : Int
  description : String
  imageUrls : List String
deriving Repr, DecidableEq

/-- The cat row the add-cat handler inserts: the 8 bound columns; the flags not in the
column list take their schema defaults. -/
def catOfBody (b : CatBody) : Cat :=
  { id := b.id, name := b.name, race := b.race, sex := b.sex, ageInMonth := b.ageInMonth
  , description := b.description, imageUrls := b.imageUrls, hasMatched := false
  , ownedById := "", deleted := false, createdAt := b.createdAt }

/-- Outcome of an HTTP handler in the embedding. -/
inductive HttpResult where
  | badRequest (msg : String)
  | created
deriving Repr, DecidableEq

/-- The handler's image-url loop: each url must be non-empty and pass
url.ParseRequestURI (the stdlib parser, abstracted as the parameter validURL). -/
def checkImageUrls (validURL : String → Bool) : List String → Option String
  | [] => none
  | u :: rest =>
    if u.length < 1 then some "image urls cannot have empty item"
    else if validURL u = false then some "image url should have valid url"
    else checkImageUrls validURL rest

/-- Handler HandleAddNewCat: the validation chain in source order, then the INSERT. The
stdlib well-formed-URL check is the parameter validURL; string length is character
count. -/
def HandleAddNewCat (validURL : String → Bool) (db : DB) (body : CatBody) : DB × HttpResult :=
  if body.name.length < 1 ∨ body.name.length > 30 then
    (db, .badRequest "name length should be between 1 and 30 characters")
  else if (CatRace.contains body.race) ≠ true then
    (db, .badRequest "accepted race is only Persian, Maine Coon, Siamese, Ragdoll, Bengal, Sphynx, British Shorthair, Abyssinian, Scottish Fold, Birman")
  else if (CatSex.contains body.sex) ≠ true then
    (db, .badRequest "accepted sex is only male and female")
  else if body.ageInMonth < 1 ∨ body.ageInMonth > 120082 then
    (db, .badRequest "your cat\x27s age is minimum 1 month and maximum 120082 month")
  else if body.description.length < 1 ∨ body.description.length > 200 then
    (db, .badRequest "description length should be between 1 and 200 characters")
  else if body.imageUrls.length < 1 then
    (db, .badRequest "image urls at least have 1 image")
  else
    match checkImageUrls validURL body.imageUrls with
    | some msg => (db, .badRequest msg)
    | none => ({ db with cats := db.cats ++ [catOfBody body] }, .created)

/-- Modelled from the spec: domain.CatQueryParams (the allow-list of accepted external
filter keys) is not among the provided sources; per spec section 9 it is the explicit
allow-list of external field names the filter builder accepts: the renamed keys
hasMatched, ageInMonth, owned and search, the passthrough columns id, race and sex, and
the pagination keys limit and offset. -/
def CatQueryParams : List String :=
  ["id", "race", "sex", "hasMatched", "ageInMonth", "owned", "search", "limit", "offset"]

def isDigitChar (c : Char) : Bool := '0' ≤ c && c ≤ '9'

def isOprChar (c : Char) : Bool := c == '>' || c == '=' || c == '<'

/-- The regexp ([>=<])(\d+) applied by FindStringSubmatch: the leftmost position whose
character is in the class and is followed by at least one digit wins; the digit group is
greedy. Returns the operator character and the digit run, or none when there is no
match. -/
def findOprNumber : List Char → Option (Char × List Char)
  | [] => none
  | c :: rest =>
    if isOprChar c then
      let ds := rest.takeWhile isDigitChar
      if ds.isEmpty then findOprNumber rest else some (c, ds)
    else findOprNumber rest

/-- One iteration of the validateGetAllCatsQueryParams loop over (key, first value),
acting on the accumulator (whereClause, limitOffsetClause, args). uuidParse abstracts
the stdlib uuid.Parse success test. -/
def processParam (uuidParse : String → Bool) (userId : String)
    (acc : List String × List String × List String) (kv : String × String) :
    List String × List String × List String :=
  let whereC := acc.1
  let loC := acc.2.1
  let args := acc.2.2
  let key := kv.1
  let v := kv.2
  let undefinedParam := (CatQueryParams.contains key) != true
  let limitOffset := key == "limit" || key == "offset"
  let emptyValue := v.length < 1
  if limitOffset then
    let loC := loC ++ [key ++ " $" ++ toString (args.length + 1)]
    let v := if key == "limit" && emptyValue then "5"
             else if key == "offset" && emptyValue then "0" else v
    (whereC, loC, args ++ [v])
  else if undefinedParam || emptyValue then
    (whereC, loC, args)
  else if key == "id" && (uuidParse v) == false then
    (whereC, loC, args)
  else
    let key := if key == "hasMatched" then "has_matched" else key
    if key == "ageInMonth" then
      match findOprNumber v.toList with
      | none => (whereC, loC, args)
      | some od =>
        (whereC ++ ["age_in_month " ++ String.singleton od.1 ++ " $" ++ toString (args.length + 1)],
         loC, args ++ [String.mk od.2])
    else if key == "owned" then
      if v != "true" && v != "false" then (whereC, loC, args)
      else if v == "false" then
        (whereC ++ ["owned_by_id != $" ++ toString (args.length + 1)], loC, args ++ [userId])
      else
        (whereC ++ ["owned_by_id = $" ++ toString (args.length + 1)], loC, args ++ [userId])
    else
      let key := if key == "search" then "name" else key
      (whereC ++ [key ++ " = $" ++ toString (args.length + 1)], loC, args ++ [v])

/-- validateGetAllCatsQueryParams: folds the loop body over the query parameters (each
with its first value, in iteration order) and returns
(whereClause, limitOffsetClause, args). -/
def validateGetAllCatsQueryParams (uuidParse : String → Bool)
    (queryParams : List (String × String)) (userId : String) :
    List String × List String × List String :=
  queryParams.foldl (processParam uuidParse userId) ([], [], [])

/-- A Go dynamic value held in a jwt.MapClaims entry. JSON decoding inside jwt.Parse
produces strings, numbers, booleans, null or nested values for claims; a uuid.UUID Go
value arises only from in-process claim construction (as GenerateToken does), never from
JSON decoding. -/
inductive GoValue where
  | str (s : String)
  | uuidVal (u : String)
  | num (n : Int)
  | boolVal (b : Bool)
  | nullVal
deriving Repr, DecidableEq

/-- A parsed JWT as the jwt library hands it back: its MapClaims and its Valid flag. -/
structure JwtToken where
  claims : List (String × GoValue)
  valid : Bool
deriving Repr, DecidableEq

/-- Map access claim[k] on MapClaims (missing key gives the nil value, on which any
concrete type assertion fails). -/
def lookupClaim (claims : List (String × GoValue)) (k : String) : Option GoValue :=
  (claims.find? (fun kv => kv.1 == k)).map (fun kv => kv.2)

def invalidTokenErr : MessageErr := NewUnauthenticatedError "invalid token"

/-- bindTokenToUserEntity: the id claim must type-assert to uuid.UUID and the name claim
to string; any other dynamic type (or a missing claim) yields the invalid-token error. -/
def bindTokenToUserEntity (claims : List (String × GoValue)) :
    Except MessageErr (String × String) :=
  match lookupClaim claims "id" with
  | some (.uuidVal u) =>
    match lookupClaim claims "name" with
    | some (.str n) => .ok (u, n)
    | _ => .error invalidTokenErr
  | _ => .error invalidTokenErr

def isSpaceChar (c : Char) : Bool := c == ' ' || c == '\t' || c == '\n' || c == '\r'

/-- List-level prefix test underlying strings.HasPrefix. -/
def listHasPre : List Char → List Char → Bool
  | [], _ => true
  | _ :: _, [] => false
  | p :: ps, c :: cs => p == c && listHasPre ps cs

/-- strings.HasPrefix(s, pre): s begins with pre. -/
def goHasPre (s pre : String) : Bool :=
  listHasPre pre.toList s.toList

/-- Accumulating scanner underlying strings.Fields: acc holds the current field's
characters in reverse. -/
def goFieldsAux (acc : List Char) : List Char → List String
  | [] => if acc.isEmpty then [] else [String.mk acc.reverse]
  | c :: cs =>
    if isSpaceChar c then
      if acc.isEmpty then goFieldsAux [] cs
      else String.mk acc.reverse :: goFieldsAux [] cs
    else goFieldsAux (c :: acc) cs

/-- strings.Fields: split around runs of whitespace; empty fields do not appear. -/
def goFields (s : String) : List String :=
  goFieldsAux [] s.toList

/-- ValidateToken: requires the header to start with "Bearer" (Unauthenticated "token
should be Bearer" otherwise) and to split into exactly two whitespace-separated fields
(Unauthenticated "invalid token" otherwise); then parses the second field with the jwt
library (abstracted as jwtParse; a parse failure, including a non-HMAC signing method,
is the invalid-token error), requires the Valid flag, and binds the claims. -/
def ValidateToken (jwtParse : String → Option JwtToken) (bearerToken : String) :
    Except MessageErr (String × String) :=
  if (goHasPre bearerToken "Bearer") == false then
    .error (NewUnauthenticatedError "token should be Bearer")
  else
    let splitToken := goFields bearerToken
    if splitToken.length != 2 then
      .error (NewUnauthenticatedError "invalid token")
    else
      let tokenString := splitToken.getD 1 ""
      match jwtParse tokenString with
      | none => .error invalidTokenErr
      | some token =>
        if token.valid == false then .error invalidTokenErr
        else bindTokenToUserEntity token.claims

/-- Some non-soft-deleted cat row carries this id (spec: the cat "exists"). -/
def ExistsNonDeleted (db : DB) (i : String) : Prop :=
  ∃ c ∈ db.cats, c.id = i ∧ c.deleted = false

instance (db : DB) (i : String) : Decidable (ExistsNonDeleted db i) := by
  unfold ExistsNonDeleted; infer_instance

/-- The identity appears on the given match as its issuer or as the owner of the
receiver (match) cat. -/
def IsParticipant (db : DB) (pid : String) (m : CatMatch) : Bool :=
  m.issuedBy == pid ||
    (match findCat db m.matchCatId with
     | some mc => mc.ownedById == pid
     | none => false)

/-- The internal column names the filter builder can emit. -/
def allowedColumns : List String :=
  ["id", "race", "sex", "has_matched", "age_in_month", "owned_by_id", "name"]

/-- The comparison operators the filter builder can emit. -/
def allowedOps : List String := ["=", ">", "<", "!="]

/-- A WHERE fragment drawn from the enumerated templates: an allow-listed column, a
fixed operator and a placeholder. -/
def IsFilterTemplate (s : String) : Prop :=
  ∃ col op, ∃ n : Nat, col ∈ allowedColumns ∧ op ∈ allowedOps ∧
    s = col ++ " " ++ op ++ " $" ++ toString n

/-- A pagination fragment drawn from the enumerated templates. -/
def IsLimitOffsetTemplate (s : String) : Prop :=
  ∃ kw n, kw ∈ ["limit", "offset"] ∧ s = kw ++ " $" ++ toString (n : Nat)

/-- The shape of one query parameter: everything about (key, value) that the emitted SQL
text (as opposed to the bound arguments) can depend on. -/
structure ParamAbs where
  key : String
  isEmptyV : Bool
  uuidOkV : Bool
  oprV : Option Char
  isTrueV : Bool
  isFalseV : Bool
deriving Repr, DecidableEq

/-- Abstraction of a (key, value) query parameter to its SQL-text-relevant shape: the
key, the emptiness of the value, whether it parses as a UUID, the operator the
ageInMonth regexp extracts, and whether the value is the boolean literal true or
false. -/
def paramAbs (uuidParse : String → Bool) (kv : String × String) : ParamAbs :=
  { key := kv.1
  , isEmptyV := decide (kv.2.length < 1)
  , uuidOkV := uuidParse kv.2
  , oprV := (findOprNumber kv.2.toList).map Prod.fst
  , isTrueV := kv.2 == "true"
  , isFalseV := kv.2 == "false" }

/-- C6: for every store, match id and payload, UpdateCatMatchByID changes no state and
returns neither a match view nor an error. -/
theorem c6_update_match_is_noop (db : DB) (id : String) (payload : CatMatch) :
    serviceUpdateCatMatchByID db id payload = (db, none, none) :=
  rfl

/-- C4 as stated is false at a concrete input: when the repository read succeeds (here
with the empty row set) the listing operation ends its transaction with tx.Commit(), so
its transaction is not rolled back. -/
theorem c4_counterexample :
    (serviceGetCatMatchesByIssuerOrReceiverID (.ok [])).1 ≠ TxEnd.rolledBack := by
  decide

/-- C4 amended: the listing operation rolls its transaction back exactly when the
repository read fails; on a successful read it commits (line 60 of the service), the
deferred rollback then being a no-op. -/
theorem c4_listing_tx_disposition (r : Except Unit (List MatchRow)) :
    (serviceGetCatMatchesByIssuerOrReceiverID r).1 =
      (match r with
       | .error _ => TxEnd.rolledBack
       | .ok _ => TxEnd.committed) := by
  cases r <;> rfl

/-- C3: the delete flow authorizes against the hard-coded placeholder user instead of
the requester. A waiting match issued by user "u1" — who is not the placeholder — is
refused with NotFound and left unchanged, although the claim says the issuer's delete
request succeeds; evaluated at the concrete failing input. -/
theorem c3_delete_authorizes_against_placeholder :
    (serviceDeleteCatMatch
        { cats := []
        , catMatches := [{ id := "m1", matchCatId := "cB", userCatId := "cA"
                         , message := "hi", status := "waiting", issuedBy := "u1"
                         , createdAt := 0 }] } "m1") =
      ({ cats := []
       , catMatches := [{ id := "m1", matchCatId := "cB", userCatId := "cA"
                        , message := "hi", status := "waiting", issuedBy := "u1"
                        , createdAt := 0 }] },
        some (NewNotFoundError "Cat match request is not found")) ∧
    "u1" ≠ hardCodedUserId := by
  constructor
  · rfl
  · decide

/-- Binding claims whose id entry is a string (the dynamic type JSON decoding gives the
id claim) fails the uuid.UUID type assertion and yields the invalid-token error. -/
theorem bindToken_str_id (claims : List (String × GoValue)) (s : String)
    (h : lookupClaim claims "id" = some (.str s)) :
    bindTokenToUserEntity claims = .error invalidTokenErr := by
  unfold bindTokenToUserEntity
  rw [h]

/-- C10: ValidateToken returns an Unauthenticated error unless the header starts with
"Bearer" and splits into exactly two whitespace-separated fields; a successfully parsed
token binds an identity only when the id claim is a uuid.UUID Go value and the name
claim a string; and every parsed token whose id claim is a string is refused with the
invalid-token error. -/
theorem c10_validate_token (jwtParse : String → Option JwtToken) (bt : String) :
    (¬ (goHasPre bt "Bearer" = true ∧ (goFields bt).length = 2) →
      ∃ msg, ValidateToken jwtParse bt = .error (NewUnauthenticatedError msg))
  ∧ (∀ u n, ValidateToken jwtParse bt = .ok (u, n) →
      ∃ tk, jwtParse ((goFields bt).getD 1 "") = some tk ∧ tk.valid = true ∧
        lookupClaim tk.claims "id" = some (.uuidVal u) ∧
        lookupClaim tk.claims "name" = some (.str n))
  ∧ (∀ tk s, goHasPre bt "Bearer" = true → (goFields bt).length = 2 →
      jwtParse ((goFields bt).getD 1 "") = some tk →
      lookupClaim tk.claims "id" = some (.str s) →
      ValidateToken jwtParse bt = .error invalidTokenErr) := by
  refine ⟨?_, ?_, ?_⟩
  · intro h
    simp only [ValidateToken]
    by_cases hp : goHasPre bt "Bearer" = true
    · have hl : (goFields bt).length ≠ 2 := fun hlen => h ⟨hp, hlen⟩
      refine ⟨"invalid token", ?_⟩
      rw [hp]
      simp [hl]
    · refine ⟨"token should be Bearer", ?_⟩
      rw [Bool.not_eq_true] at hp
      rw [hp]
      simp
  · intro u n hok
    simp only [ValidateToken] at hok
    split at hok
    · simp at hok
    · split at hok
      · simp at hok
      · split at hok
        · simp at hok
        · rename_i tk2 hparse
          have hvalid : tk2.valid = true := by
            cases hv : tk2.valid
            · rw [hv] at hok; simp at hok
            · rfl
          simp only [hvalid, show (true == false) = false from rfl,
            Bool.false_eq_true, if_false] at hok
          have hq : lookupClaim tk2.claims "id" = some (.uuidVal u) ∧
              lookupClaim tk2.claims "name" = some (.str n) := by
            unfold bindTokenToUserEntity at hok
            cases hid : lookupClaim tk2.claims "id" with
            | none => rw [hid] at hok; simp at hok
            | some g =>
              rw [hid] at hok
              cases g with
              | uuidVal u2 =>
                cases hname : lookupClaim tk2.claims "name" with
                | none => rw [hname] at hok; simp at hok
                | some g2 =>
                  rw [hname] at hok
                  cases g2 <;> simp_all
              | str s2 => simp at hok
              | num n2 => simp at hok
              | boolVal b2 => simp at hok
              | nullVal => simp at hok
          exact ⟨tk2, hparse, hvalid, hq.1, hq.2⟩
  · intro tk s hp hl hparse hid
    simp only [ValidateToken]
    rw [hp, hl, hparse]
    cases hv : tk.valid
    · simp [hv]
    · simp [hv, bindToken_str_id tk.claims s hid]

/-- Witness for C10 at a concrete header and parse stub: the parsed token carries a
string id claim (as JSON decoding produces) and is refused. -/
theorem c10_validate_token_witness :
    ValidateToken
      (fun t => if t == "tok" then
        some { claims := [("id", GoValue.str "abc"), ("name", GoValue.str "bob")]
             , valid := true }
        else none) "Bearer tok" = .error invalidTokenErr :=
  (c10_validate_token
      (fun t => if t == "tok" then
        some { claims := [("id", GoValue.str "abc"), ("name", GoValue.str "bob")]
             , valid := true }
        else none) "Bearer tok").2.2
    { claims := [("id", GoValue.str "abc"), ("name", GoValue.str "bob")], valid := true }
    "abc" (by decide) (by decide) (by decide) (by decide)

/-- The image-url loop returns no error exactly when every url is non-empty and passes
the well-formedness check. -/
theorem checkImageUrls_eq_none (v : String → Bool) (l : List String) :
    checkImageUrls v l = none ↔ ∀ u ∈ l, 1 ≤ u.length ∧ v u = true := by
  induction l with
  | nil => simp [checkImageUrls]
  | cons u rest ih =>
    simp only [checkImageUrls]
    by_cases h1 : u.length < 1
    · simp only [if_pos h1]
      constructor
      · intro h; exact absurd h (by simp)
      · intro h
        have := (h u (List.mem_cons_self u rest)).1
        omega
    · simp only [if_neg h1]
      by_cases h2 : v u = false
      · simp only [if_pos h2]
        constructor
        · intro h; exact absurd h (by simp)
        · intro h
          have := (h u (List.mem_cons_self u rest)).2
          rw [this] at h2
          exact absurd h2 (by simp)
      · simp only [if_neg h2]
        rw [ih]
        constructor
        · intro h x hx
          rcases List.mem_cons.mp hx with hx | hx
          · subst hx
            refine ⟨by omega, ?_⟩
            cases hvx : v x
            · exact absurd hvx h2
            · rfl
          · exact h x hx
        · intro h x hx
          exact h x (List.mem_cons_of_mem u hx)

/-- C7: the add-cat handler rejects with BadRequest and inserts nothing whenever one of
the listed field constraints is violated (race outside the ten breeds, sex outside
male/female, age outside 1..120082, description length outside 1..200, empty image-url
list, or an empty or ill-formed image url), and inserts the cat row and returns 201
when every constraint — the 1..30 name length included — holds. -/
theorem c7_handle_add_new_cat (validURL : String → Bool) (db : DB) (b : CatBody) :
    ((b.race ∉ CatRace ∨ b.sex ∉ CatSex ∨ b.ageInMonth < 1 ∨ b.ageInMonth > 120082 ∨
      b.description.length < 1 ∨ b.description.length > 200 ∨ b.imageUrls = [] ∨
      (∃ u ∈ b.imageUrls, u.length < 1 ∨ validURL u = false)) →
      (HandleAddNewCat validURL db b).1 = db ∧
      ∃ msg, (HandleAddNewCat validURL db b).2 = .badRequest msg)
  ∧ ((1 ≤ b.name.length ∧ b.name.length ≤ 30 ∧ b.race ∈ CatRace ∧ b.sex ∈ CatSex ∧
      1 ≤ b.ageInMonth ∧ b.ageInMonth ≤ 120082 ∧ 1 ≤ b.description.length ∧
      b.description.length ≤ 200 ∧ b.imageUrls ≠ [] ∧
      (∀ u ∈ b.imageUrls, 1 ≤ u.length ∧ validURL u = true)) →
      HandleAddNewCat validURL db b =
        ({ db with cats := db.cats ++ [catOfBody b] }, .created)) := by
  constructor
  · intro hviol
    by_cases hn : b.name.length < 1 ∨ b.name.length > 30
    · simp only [HandleAddNewCat, if_pos hn]; exact ⟨by trivial, _, by trivial⟩
    · by_cases hr : CatRace.contains b.race ≠ true
      · simp only [HandleAddNewCat, if_neg hn, if_pos hr]; exact ⟨by trivial, _, by trivial⟩
      · by_cases hs : CatSex.contains b.sex ≠ true
        · simp only [HandleAddNewCat, if_neg hn, if_neg hr, if_pos hs]
          exact ⟨by trivial, _, by trivial⟩
        · by_cases ha : b.ageInMonth < 1 ∨ b.ageInMonth > 120082
          · simp only [HandleAddNewCat, if_neg hn, if_neg hr, if_neg hs, if_pos ha]
            exact ⟨by trivial, _, by trivial⟩
          · by_cases hd : b.description.length < 1 ∨ b.description.length > 200
            · simp only [HandleAddNewCat, if_neg hn, if_neg hr, if_neg hs, if_neg ha,
                if_pos hd]
              exact ⟨by trivial, _, by trivial⟩
            · by_cases hi : b.imageUrls.length < 1
              · simp only [HandleAddNewCat, if_neg hn, if_neg hr, if_neg hs, if_neg ha,
                  if_neg hd, if_pos hi]
                exact ⟨by trivial, _, by trivial⟩
              · cases hcl : checkImageUrls validURL b.imageUrls with
                | some msg =>
                  simp only [HandleAddNewCat, if_neg hn, if_neg hr, if_neg hs,
                    if_neg ha, if_neg hd, if_neg hi, hcl]
                  exact ⟨by trivial, _, by trivial⟩
                | none =>
                  exfalso
                  rw [checkImageUrls_eq_none] at hcl
                  rcases hviol with h | h | h | h | h | h | h | h
                  · exact h (by simpa using hr)
                  · exact h (by simpa using hs)
                  · omega
                  · omega
                  · omega
                  · omega
                  · rw [h] at hi; simp at hi
                  · obtain ⟨u, hu, hbad⟩ := h
                    obtain ⟨hu1, hu2⟩ := hcl u hu
                    rcases hbad with hb | hb
                    · omega
                    · rw [hu2] at hb; exact absurd hb (by simp)
  · intro hval
    obtain ⟨h1, h2, h3, h4, h5, h6, h7, h8, h9, h10⟩ := hval
    have hn : ¬(b.name.length < 1 ∨ b.name.length > 30) := by omega
    have hr : ¬(CatRace.contains b.race ≠ true) := by simpa using h3
    have hs : ¬(CatSex.contains b.sex ≠ true) := by simpa using h4
    have ha : ¬(b.ageInMonth < 1 ∨ b.ageInMonth > 120082) := by omega
    have hd : ¬(b.description.length < 1 ∨ b.description.length > 200) := by omega
    have hi : ¬(b.imageUrls.length < 1) := by
      intro hc
      exact h9 (List.length_eq_zero.mp (by omega))
    have hu : checkImageUrls validURL b.imageUrls = none :=
      (checkImageUrls_eq_none validURL b.imageUrls).mpr h10
    simp only [HandleAddNewCat, if_neg hn, if_neg hr, if_neg hs, if_neg ha, if_neg hd,
      if_neg hi, hu]

/-- Witness for C7 at concrete inputs: a body with an unlisted race is refused without
insertion, and a fully valid body is inserted with a 201. -/
theorem c7_handle_add_new_cat_witness :
    ((HandleAddNewCat (fun _ => true) { cats := [], catMatches := [] }
        { id := "c1", createdAt := 0, name := "Tom", race := "Dog", sex := "male"
        , ageInMonth := 3, description := "cute", imageUrls := ["http://a/b"] }).1 =
      { cats := [], catMatches := [] } ∧
      ∃ msg, (HandleAddNewCat (fun _ => true) { cats := [], catMatches := [] }
        { id := "c1", createdAt := 0, name := "Tom", race := "Dog", sex := "male"
        , ageInMonth := 3, description := "cute", imageUrls := ["http://a/b"] }).2 =
        .badRequest msg) ∧
    HandleAddNewCat (fun _ => true) { cats := [], catMatches := [] }
      { id := "c1", createdAt := 0, name := "Tom", race := "Persian", sex := "male"
      , ageInMonth := 3, description := "cute", imageUrls := ["http://a/b"] } =
      ({ cats := [catOfBody { id := "c1", createdAt := 0, name := "Tom"
                            , race := "Persian", sex := "male", ageInMonth := 3
                            , description := "cute", imageUrls := ["http://a/b"] }]
        , catMatches := [] }, .created) :=
  ⟨(c7_handle_add_new_cat (fun _ => true) { cats := [], catMatches := [] }
      { id := "c1", createdAt := 0, name := "Tom", race := "Dog", sex := "male"
      , ageInMonth := 3, description := "cute", imageUrls := ["http://a/b"] }).1
    (Or.inl (by decide)),
   (c7_handle_add_new_cat (fun _ => true) { cats := [], catMatches := [] }
      { id := "c1", createdAt := 0, name := "Tom", race := "Persian", sex := "male"
      , ageInMonth := 3, description := "cute", imageUrls := ["http://a/b"] }).2
    (by refine ⟨by decide, by decide, by decide, by decide, by decide, by decide,
      by decide, by decide, by decide, ?_⟩
        intro u hu
        simp at hu
        subst hu
        exact ⟨by decide, rfl⟩)⟩

/-- In a table whose ids are unique, two rows carrying the same id are the same row. -/
theorem eq_of_mem_of_id_eq (db : DB) (hnd : (db.cats.map (fun c => c.id)).Nodup)
    {a b : Cat} (ha : a ∈ db.cats) (hb : b ∈ db.cats) (h : a.id = b.id) : a = b :=
  List.inj_on_of_nodup_map hnd ha hb h

/-- Membership in the predicate-query self-join. -/
theorem mem_joinCatsOn (db : DB) (id1 id2 : String) (p : Cat × Cat) :
    p ∈ joinCatsOn db id1 id2 ↔
      p.1 ∈ db.cats ∧ p.2 ∈ db.cats ∧ p.2.id ≠ p.1.id ∧ p.1.id = id1 ∧ p.2.id = id2 := by
  cases p with
  | mk a b =>
    simp only [joinCatsOn, List.mem_filter, List.mem_flatMap, List.mem_map,
      List.mem_filter, Bool.and_eq_true, beq_iff_eq, bne_iff_ne, ne_eq]
    constructor
    · rintro ⟨⟨c1, hc1, c2, ⟨hc2, hne⟩, heq⟩, he1, he2⟩
      cases heq
      exact ⟨hc1, hc2, hne, he1, he2⟩
    · rintro ⟨ha, hb, hne, he1, he2⟩
      exact ⟨⟨a, ha, b, ⟨hb, hne⟩, rfl⟩, he1, he2⟩

/-- With unique ids, distinct present ids make the self-join's first row the unique
matching pair. -/
theorem joinCatsOn_head_eq (db : DB) (hnd : (db.cats.map (fun c => c.id)).Nodup)
    {c1 c2 : Cat} (h1 : c1 ∈ db.cats) (h2 : c2 ∈ db.cats) (hne : c1.id ≠ c2.id) :
    (joinCatsOn db c1.id c2.id).head? = some (c1, c2) := by
  have hmem : (c1, c2) ∈ joinCatsOn db c1.id c2.id :=
    (mem_joinCatsOn db c1.id c2.id (c1, c2)).mpr
      ⟨h1, h2, fun h => hne h.symm, rfl, rfl⟩
  have hall : ∀ p ∈ joinCatsOn db c1.id c2.id, p = (c1, c2) := by
    intro p hp
    obtain ⟨hp1, hp2, hpne, hpe1, hpe2⟩ := (mem_joinCatsOn db c1.id c2.id p).mp hp
    have e1 : p.1 = c1 := eq_of_mem_of_id_eq db hnd hp1 h1 hpe1
    have e2 : p.2 = c2 := eq_of_mem_of_id_eq db hnd hp2 h2 hpe2
    cases p
    simp only [Prod.mk.injEq]
    exact ⟨e1, e2⟩
  cases hj : joinCatsOn db c1.id c2.id with
  | nil => rw [hj] at hmem; simp at hmem
  | cons q t =>
    have hq : q = (c1, c2) := hall q (by rw [hj]; exact List.mem_cons_self q t)
    rw [List.head?_cons, hq]

/-- With a same-id join key the self-join is empty. -/
theorem joinCatsOn_same_id (db : DB) (i : String) : joinCatsOn db i i = [] := by
  rw [List.eq_nil_iff_forall_not_mem]
  intro p hp
  obtain ⟨_, _, hpne, hpe1, hpe2⟩ := (mem_joinCatsOn db i i p).mp hp
  exact hpne (hpe2.trans hpe1.symm)

/-- The EXISTS subquery agrees with the existence predicate. -/
theorem any_eq_true_iff_existsNonDeleted (db : DB) (i : String) :
    (db.cats.any (fun c => c.id == i && c.deleted == false)) = true ↔
      ExistsNonDeleted db i := by
  simp [ExistsNonDeleted, List.any_eq_true]

/-- A repository create fails when either referenced cat is missing or soft-deleted. -/
theorem repoCreate_none_of_missing (db : DB) (m : CatMatch)
    (h : ¬ ExistsNonDeleted db m.userCatId ∨ ¬ ExistsNonDeleted db m.matchCatId) :
    repoCreateCatMatch db m = none := by
  have hb : (db.cats.any (fun c => c.id == m.userCatId && c.deleted == false) &&
      db.cats.any (fun c => c.id == m.matchCatId && c.deleted == false)) = false := by
    rcases h with h | h
    · have hfst : (db.cats.any (fun c => c.id == m.userCatId && c.deleted == false)) = false := by
        rw [← Bool.not_eq_true]
        intro hc
        exact h ((any_eq_true_iff_existsNonDeleted db m.userCatId).mp hc)
      rw [hfst, Bool.false_and]
    · have hsnd : (db.cats.any (fun c => c.id == m.matchCatId && c.deleted == false)) = false := by
        rw [← Bool.not_eq_true]
        intro hc
        exact h ((any_eq_true_iff_existsNonDeleted db m.matchCatId).mp hc)
      rw [hsnd, Bool.and_false]
  simp only [repoCreateCatMatch, CheckBothCatExists, hb]
  rfl

/-- C1: when any single creation predicate is violated — either cat missing or
soft-deleted, same sex, same owner, or either cat already matched — CreateCatMatch fails
with a BadRequest/NotFound-kind domain error and the store is returned unchanged, so no
match row is visible to any subsequent read. -/
theorem c1_create_match_rejection (db : DB) (m : CatMatch)
    (hnd : (db.cats.map (fun c => c.id)).Nodup)
    (hviol :
      (¬ ExistsNonDeleted db m.userCatId) ∨ (¬ ExistsNonDeleted db m.matchCatId) ∨
      (∃ c1 ∈ db.cats, ∃ c2 ∈ db.cats, c1.id = m.userCatId ∧ c2.id = m.matchCatId ∧
        (c1.sex = c2.sex ∨ c1.ownedById = c2.ownedById ∨
         c1.hasMatched = true ∨ c2.hasMatched = true))) :
    serviceCreateCatMatch db m =
      (db, .error (NewBadRequest "Failed to create cat match")) ∧
    (NewBadRequest "Failed to create cat match").kind = ErrKind.badRequest := by
  have hrepo : repoCreateCatMatch db m = none := by
    rcases hviol with h | h | h
    · exact repoCreate_none_of_missing db m (Or.inl h)
    · exact repoCreate_none_of_missing db m (Or.inr h)
    · obtain ⟨c1, hc1, c2, hc2, he1, he2, hdis⟩ := h
      by_cases heq : m.userCatId = m.matchCatId
      · have hj : CheckCatHasSameSex db m.userCatId m.matchCatId = none := by
          rw [heq, CheckCatHasSameSex, joinCatsOn_same_id]
          rfl
        simp only [repoCreateCatMatch, CheckBothCatExists, hj]
        simp
      · have hne12 : c1.id ≠ c2.id := by rw [he1, he2]; exact heq
        have hj : (joinCatsOn db m.userCatId m.matchCatId).head? = some (c1, c2) := by
          rw [← he1, ← he2]
          exact joinCatsOn_head_eq db hnd hc1 hc2 hne12
        simp only [repoCreateCatMatch, CheckBothCatExists, CheckCatHasSameSex,
          CheckCatFromSameOwner, CheckCatHasMatched, hj, Option.map_some']
        rcases hdis with hd | hd | hd | hd
        · have hsx : (c1.sex == c2.sex) = true := beq_iff_eq.mpr hd
          simp [hsx]
        · by_cases hsx : (c1.sex == c2.sex) = true
          · simp [hsx]
          · have hown : (c1.ownedById == c2.ownedById) = true := beq_iff_eq.mpr hd
            simp [hsx, hown]
        · by_cases hsx : (c1.sex == c2.sex) = true
          · simp [hsx]
          · by_cases how : (c1.ownedById == c2.ownedById) = true
            · simp [hsx, how]
            · have hmt : (c1.hasMatched || c2.hasMatched) = true := by simp [hd]
              simp [hsx, how, hmt]
        · by_cases hsx : (c1.sex == c2.sex) = true
          · simp [hsx]
          · by_cases how : (c1.ownedById == c2.ownedById) = true
            · simp [hsx, how]
            · have hmt : (c1.hasMatched || c2.hasMatched) = true := by simp [hd]
              simp [hsx, how, hmt]
  refine ⟨?_, rfl⟩
  simp [serviceCreateCatMatch, hrepo]

/-- Witness for C1 at a concrete store: two male cats of different owners; the creation
request is refused and the store is unchanged. -/
theorem c1_create_match_rejection_witness :
    serviceCreateCatMatch
      { cats :=
          [{ id := "cA", name := "A", race := "Persian", sex := "male"
           , ageInMonth := 2, description := "a", imageUrls := ["u"]
           , hasMatched := false, ownedById := "u1", deleted := false, createdAt := 1 },
           { id := "cB", name := "B", race := "Birman", sex := "male"
           , ageInMonth := 3, description := "b", imageUrls := ["v"]
           , hasMatched := false, ownedById := "u2", deleted := false, createdAt := 2 }]
      , catMatches := [] }
      { id := "m1", matchCatId := "cB", userCatId := "cA", message := "hi"
      , status := "", issuedBy := "u1", createdAt := 3 } =
      ({ cats :=
          [{ id := "cA", name := "A", race := "Persian", sex := "male"
           , ageInMonth := 2, description := "a", imageUrls := ["u"]
           , hasMatched := false, ownedById := "u1", deleted := false, createdAt := 1 },
           { id := "cB", name := "B", race := "Birman", sex := "male"
           , ageInMonth := 3, description := "b", imageUrls := ["v"]
           , hasMatched := false, ownedById := "u2", deleted := false, createdAt := 2 }]
       , catMatches := [] },
       .error (NewBadRequest "Failed to create cat match")) ∧
    (NewBadRequest "Failed to create cat match").kind = ErrKind.badRequest :=
  c1_create_match_rejection
    { cats :=
        [{ id := "cA", name := "A", race := "Persian", sex := "male"
         , ageInMonth := 2, description := "a", imageUrls := ["u"]
         , hasMatched := false, ownedById := "u1", deleted := false, createdAt := 1 },
         { id := "cB", name := "B", race := "Birman", sex := "male"
         , ageInMonth := 3, description := "b", imageUrls := ["v"]
         , hasMatched := false, ownedById := "u2", deleted := false, createdAt := 2 }]
    , catMatches := [] }
    { id := "m1", matchCatId := "cB", userCatId := "cA", message := "hi"
    , status := "", issuedBy := "u1", createdAt := 3 }
    (by decide) (by decide)

/-- With unique ids, the id lookup of a present row returns exactly that row. -/
theorem find_by_id_eq (l : List Cat) (hnd : (l.map (fun c => c.id)).Nodup)
    {c : Cat} (hc : c ∈ l) : l.find? (fun x => x.id == c.id) = some c := by
  induction l with
  | nil => simp at hc
  | cons a t ih =>
    rw [List.map_cons, List.nodup_cons] at hnd
    rcases List.mem_cons.mp hc with rfl | hct
    · rw [List.find?_cons_of_pos _ (by simp)]
    · have hne : (a.id == c.id) = false := by
        rw [beq_eq_false_iff_ne]
        intro he
        exact hnd.1 (by rw [he]; exact List.mem_map_of_mem _ hct)
      rw [List.find?_cons_of_neg _ (by simp [hne])]
      exact ih hnd.2 hct

/-- C2: a creation request whose two cats exist undeleted, differ in sex, belong to
different owners and have not matched succeeds: the match row is appended with status
"waiting" and is visible, with its id, in a subsequent listing for the issuer and for
the receiver (the owner of the match cat). -/
theorem c2_create_match_success (db : DB) (m : CatMatch) (c1 c2 : Cat)
    (hnd : (db.cats.map (fun c => c.id)).Nodup)
    (h1 : c1 ∈ db.cats) (hid1 : c1.id = m.userCatId) (hd1 : c1.deleted = false)
    (h2 : c2 ∈ db.cats) (hid2 : c2.id = m.matchCatId) (hd2 : c2.deleted = false)
    (hsex : c1.sex ≠ c2.sex) (hown : c1.ownedById ≠ c2.ownedById)
    (hm1 : c1.hasMatched = false) (hm2 : c2.hasMatched = false) :
    serviceCreateCatMatch db m =
      ({ db with catMatches := db.catMatches ++ [{ m with status := "waiting" }] },
       .ok "successfully send match request") ∧
    (∀ pid ∈ [m.issuedBy, c2.ownedById],
      ∃ rs, (getCatMatchesOnDB
          { db with catMatches := db.catMatches ++ [{ m with status := "waiting" }] }
          pid).2 = .ok rs ∧
        ∃ r ∈ rs, r.ID = m.id) := by
  have hne : c1.id ≠ c2.id := by
    intro he
    exact hown (by rw [eq_of_mem_of_id_eq db hnd h1 h2 he])
  have hj : (joinCatsOn db m.userCatId m.matchCatId).head? = some (c1, c2) := by
    rw [← hid1, ← hid2]
    exact joinCatsOn_head_eq db hnd h1 h2 hne
  have hex1 : (db.cats.any (fun c => c.id == m.userCatId && c.deleted == false)) = true :=
    (any_eq_true_iff_existsNonDeleted db m.userCatId).mpr ⟨c1, h1, hid1, hd1⟩
  have hex2 : (db.cats.any (fun c => c.id == m.matchCatId && c.deleted == false)) = true :=
    (any_eq_true_iff_existsNonDeleted db m.matchCatId).mpr ⟨c2, h2, hid2, hd2⟩
  have hsx : (c1.sex == c2.sex) = false := beq_eq_false_iff_ne.mpr hsex
  have how : (c1.ownedById == c2.ownedById) = false := beq_eq_false_iff_ne.mpr hown
  have hrepo : repoCreateCatMatch db m =
      some { db with catMatches := db.catMatches ++ [{ m with status := "waiting" }] } := by
    simp only [repoCreateCatMatch, CheckBothCatExists, CheckCatHasSameSex,
      CheckCatFromSameOwner, CheckCatHasMatched, hj, Option.map_some', hex1, hex2,
      hsx, how, hm1, hm2]
    rfl
  refine ⟨by simp [serviceCreateCatMatch, hrepo], ?_⟩
  intro pid hpid
  have hfcm : findCat
      { db with catMatches := db.catMatches ++ [{ m with status := "waiting" }] }
      m.matchCatId = some c2 := by
    show db.cats.find? (fun x => x.id == m.matchCatId) = some c2
    rw [← hid2]
    exact find_by_id_eq db.cats hnd h2
  have hfcu : findCat
      { db with catMatches := db.catMatches ++ [{ m with status := "waiting" }] }
      m.userCatId = some c1 := by
    show db.cats.find? (fun x => x.id == m.userCatId) = some c1
    rw [← hid1]
    exact find_by_id_eq db.cats hnd h1
  have hcond : (m.issuedBy == pid || c2.ownedById == pid) = true := by
    simp only [List.mem_cons, List.mem_singleton, List.not_mem_nil, or_false] at hpid
    rcases hpid with rfl | rfl
    · simp
    · simp
  have hrowmem : (⟨{ m with status := "waiting" }, c2, c1⟩ : MatchRow) ∈
      repoGetCatMatchesByIssuerOrReceiverID
        { db with catMatches := db.catMatches ++ [{ m with status := "waiting" }] }
        pid := by
    rw [repoGetCatMatchesByIssuerOrReceiverID]
    apply List.mem_filterMap.mpr
    refine ⟨{ m with status := "waiting" }, by simp, ?_⟩
    simp only [hfcm, hfcu, hcond, if_true]
  exact ⟨_, rfl, rowToResponse ⟨{ m with status := "waiting" }, c2, c1⟩,
    List.mem_map_of_mem _ hrowmem, rfl⟩

/-- Witness for C2 at a concrete store: a male and a female cat of different owners;
the match is created with status "waiting" and the row is listed for both
participants. -/
theorem c2_create_match_success_witness :
    serviceCreateCatMatch
      { cats :=
          [{ id := "cA", name := "A", race := "Persian", sex := "male"
           , ageInMonth := 2, description := "a", imageUrls := ["u"]
           , hasMatched := false, ownedById := "u1", deleted := false, createdAt := 1 },
           { id := "cB", name := "B", race := "Birman", sex := "female"
           , ageInMonth := 3, description := "b", imageUrls := ["v"]
           , hasMatched := false, ownedById := "u2", deleted := false, createdAt := 2 }]
      , catMatches := [] }
      { id := "m1", matchCatId := "cB", userCatId := "cA", message := "hi"
      , status := "", issuedBy := "u1", createdAt := 3 } =
      ({ cats :=
          [{ id := "cA", name := "A", race := "Persian", sex := "male"
           , ageInMonth := 2, description := "a", imageUrls := ["u"]
           , hasMatched := false, ownedById := "u1", deleted := false, createdAt := 1 },
           { id := "cB", name := "B", race := "Birman", sex := "female"
           , ageInMonth := 3, description := "b", imageUrls := ["v"]
           , hasMatched := false, ownedById := "u2", deleted := false, createdAt := 2 }]
       , catMatches :=
          [{ id := "m1", matchCatId := "cB", userCatId := "cA", message := "hi"
           , status := "waiting", issuedBy := "u1", createdAt := 3 }] },
       .ok "successfully send match request") ∧
    (∀ pid ∈ ["u1", "u2"],
      ∃ rs, (getCatMatchesOnDB
          { cats :=
              [{ id := "cA", name := "A", race := "Persian", sex := "male"
               , ageInMonth := 2, description := "a", imageUrls := ["u"]
               , hasMatched := false, ownedById := "u1", deleted := false, createdAt := 1 },
               { id := "cB", name := "B", race := "Birman", sex := "female"
               , ageInMonth := 3, description := "b", imageUrls := ["v"]
               , hasMatched := false, ownedById := "u2", deleted := false, createdAt := 2 }]
          , catMatches :=
              [{ id := "m1", matchCatId := "cB", userCatId := "cA", message := "hi"
               , status := "waiting", issuedBy := "u1", createdAt := 3 }] }
          pid).2 = .ok rs ∧
        ∃ r ∈ rs, r.ID = "m1") :=
  c2_create_match_success
    { cats :=
        [{ id := "cA", name := "A", race := "Persian", sex := "male"
         , ageInMonth := 2, description := "a", imageUrls := ["u"]
         , hasMatched := false, ownedById := "u1", deleted := false, createdAt := 1 },
         { id := "cB", name := "B", race := "Birman", sex := "female"
         , ageInMonth := 3, description := "b", imageUrls := ["v"]
         , hasMatched := false, ownedById := "u2", deleted := false, createdAt := 2 }]
    , catMatches := [] }
    { id := "m1", matchCatId := "cB", userCatId := "cA", message := "hi"
    , status := "", issuedBy := "u1", createdAt := 3 }
    { id := "cA", name := "A", race := "Persian", sex := "male"
    , ageInMonth := 2, description := "a", imageUrls := ["u"]
    , hasMatched := false, ownedById := "u1", deleted := false, createdAt := 1 }
    { id := "cB", name := "B", race := "Birman", sex := "female"
    , ageInMonth := 3, description := "b", imageUrls := ["v"]
    , hasMatched := false, ownedById := "u2", deleted := false, createdAt := 2 }
    (by decide) (by decide) (by decide) (by decide) (by decide) (by decide)
    (by decide) (by decide) (by decide) (by decide) (by decide)

/-- When every match's cat references resolve, the listing join keeps exactly the
matches in which the identity participates. -/
theorem filterMap_row_length (db : DB) (pid : String) (l : List CatMatch)
    (hres : ∀ mm ∈ l,
      (findCat db mm.matchCatId).isSome ∧ (findCat db mm.userCatId).isSome) :
    (l.filterMap (fun m =>
      match findCat db m.matchCatId, findCat db m.userCatId with
      | some mc, some uc =>
        if m.issuedBy == pid || mc.ownedById == pid then
          some (⟨m, mc, uc⟩ : MatchRow)
        else none
      | _, _ => none)).length = (l.filter (IsParticipant db pid)).length := by
  induction l with
  | nil => rfl
  | cons mm t ih =>
    obtain ⟨hm1, hm2⟩ := hres mm (List.mem_cons_self mm t)
    obtain ⟨mc, hmc⟩ := Option.isSome_iff_exists.mp hm1
    obtain ⟨uc, huc⟩ := Option.isSome_iff_exists.mp hm2
    have ht := ih (fun x hx => hres x (List.mem_cons_of_mem _ hx))
    have hpart : IsParticipant db pid mm =
        (mm.issuedBy == pid || mc.ownedById == pid) := by
      unfold IsParticipant
      rw [hmc]
    by_cases hcond : (mm.issuedBy == pid || mc.ownedById == pid) = true
    · simp only [List.filterMap_cons, List.filter_cons, hmc, huc, hpart, hcond,
        if_true, List.length_cons, ht]
    · have hcf : (mm.issuedBy == pid || mc.ownedById == pid) = false :=
        Bool.not_eq_true _ |>.mp hcond
      simp only [List.filterMap_cons, List.filter_cons, hmc, huc, hpart, hcf,
        Bool.false_eq_true, if_false, ht]

/-- Every row the listing join returns is a stored match with its two resolved cats. -/
theorem mem_repoGet (db : DB) (pid : String) (row : MatchRow)
    (h : row ∈ repoGetCatMatchesByIssuerOrReceiverID db pid) :
    row.m ∈ db.catMatches ∧ findCat db row.m.matchCatId = some row.matchCat ∧
      findCat db row.m.userCatId = some row.userCat := by
  rw [repoGetCatMatchesByIssuerOrReceiverID] at h
  obtain ⟨mm, hmm, hf⟩ := List.mem_filterMap.mp h
  cases hmc : findCat db mm.matchCatId with
  | none => rw [hmc] at hf; simp at hf
  | some mc =>
    cases huc : findCat db mm.userCatId with
    | none => rw [hmc, huc] at hf; simp at hf
    | some uc =>
      simp only [hmc, huc] at hf
      by_cases hcond : (mm.issuedBy == pid || mc.ownedById == pid) = true
      · simp only [hcond, if_true] at hf
        injection hf with hf
        subst hf
        exact ⟨hmm, hmc, huc⟩
      · have hcf : (mm.issuedBy == pid || mc.ownedById == pid) = false :=
          Bool.not_eq_true _ |>.mp hcond
        simp only [hcf, Bool.false_eq_true, if_false] at hf
        simp at hf

/-- C5: the listing never errors; a participant in zero matches receives the empty
sequence; a participant in N matches receives exactly N entries; and every entry embeds
both referenced cats' public fields through the response mapping. -/
theorem c5_listing_counts (db : DB) (pid : String)
    (hres : ∀ mm ∈ db.catMatches,
      (findCat db mm.matchCatId).isSome ∧ (findCat db mm.userCatId).isSome) :
    ∃ rs, (getCatMatchesOnDB db pid).2 = .ok rs ∧
      rs.length = (db.catMatches.filter (IsParticipant db pid)).length ∧
      ((db.catMatches.filter (IsParticipant db pid)).length = 0 → rs = []) ∧
      (∀ r ∈ rs, ∃ mm mc uc, mm ∈ db.catMatches ∧
        findCat db mm.matchCatId = some mc ∧ findCat db mm.userCatId = some uc ∧
        r = rowToResponse ⟨mm, mc, uc⟩ ∧
        r.MatchCat = catToResponse mc ∧ r.UserCat = catToResponse uc) := by
  have hlen : (repoGetCatMatchesByIssuerOrReceiverID db pid).length =
      (db.catMatches.filter (IsParticipant db pid)).length := by
    rw [repoGetCatMatchesByIssuerOrReceiverID]
    exact filterMap_row_length db pid db.catMatches hres
  refine ⟨(repoGetCatMatchesByIssuerOrReceiverID db pid).map rowToResponse, rfl, ?_, ?_, ?_⟩
  · rw [List.length_map]
    exact hlen
  · intro h0
    apply List.eq_nil_of_length_eq_zero
    rw [List.length_map, hlen, h0]
  · intro r hr
    obtain ⟨row, hrow, hmap⟩ := List.mem_map.mp hr
    obtain ⟨hm, hmc, huc⟩ := mem_repoGet db pid row hrow
    subst hmap
    exact ⟨row.m, row.matchCat, row.userCat, hm, hmc, huc, by cases row; rfl, rfl, rfl⟩

/-- Witness for C5 at a concrete store holding one match issued by "u1". -/
theorem c5_listing_counts_witness :
    ∃ rs, (getCatMatchesOnDB { cats := [{ id := "cA", name := "A", race := "Persian", sex := "male", ageInMonth := 2, description := "a", imageUrls := ["u"], hasMatched := false, ownedById := "u1", deleted := false, createdAt := 1 }, { id := "cB", name := "B", race := "Birman", sex := "female", ageInMonth := 3, description := "b", imageUrls := ["v"], hasMatched := false, ownedById := "u2", deleted := false, createdAt := 2 }], catMatches := [{ id := "m1", matchCatId := "cB", userCatId := "cA", message := "hi", status := "waiting", issuedBy := "u1", createdAt := 3 }] } "u1").2 = .ok rs ∧
      rs.length = (({ cats := [{ id := "cA", name := "A", race := "Persian", sex := "male", ageInMonth := 2, description := "a", imageUrls := ["u"], hasMatched := false, ownedById := "u1", deleted := false, createdAt := 1 }, { id := "cB", name := "B", race := "Birman", sex := "female", ageInMonth := 3, description := "b", imageUrls := ["v"], hasMatched := false, ownedById := "u2", deleted := false, createdAt := 2 }], catMatches := [{ id := "m1", matchCatId := "cB", userCatId := "cA", message := "hi", status := "waiting", issuedBy := "u1", createdAt := 3 }] } : DB).catMatches.filter (IsParticipant { cats := [{ id := "cA", name := "A", race := "Persian", sex := "male", ageInMonth := 2, description := "a", imageUrls := ["u"], hasMatched := false, ownedById := "u1", deleted := false, createdAt := 1 }, { id := "cB", name := "B", race := "Birman", sex := "female", ageInMonth := 3, description := "b", imageUrls := ["v"], hasMatched := false, ownedById := "u2", deleted := false, createdAt := 2 }], catMatches := [{ id := "m1", matchCatId := "cB", userCatId := "cA", message := "hi", status := "waiting", issuedBy := "u1", createdAt := 3 }] } "u1")).length ∧
      ((({ cats := [{ id := "cA", name := "A", race := "Persian", sex := "male", ageInMonth := 2, description := "a", imageUrls := ["u"], hasMatched := false, ownedById := "u1", deleted := false, createdAt := 1 }, { id := "cB", name := "B", race := "Birman", sex := "female", ageInMonth := 3, description := "b", imageUrls := ["v"], hasMatched := false, ownedById := "u2", deleted := false, createdAt := 2 }], catMatches := [{ id := "m1", matchCatId := "cB", userCatId := "cA", message := "hi", status := "waiting", issuedBy := "u1", createdAt := 3 }] } : DB).catMatches.filter (IsParticipant { cats := [{ id := "cA", name := "A", race := "Persian", sex := "male", ageInMonth := 2, description := "a", imageUrls := ["u"], hasMatched := false, ownedById := "u1", deleted := false, createdAt := 1 }, { id := "cB", name := "B", race := "Birman", sex := "female", ageInMonth := 3, description := "b", imageUrls := ["v"], hasMatched := false, ownedById := "u2", deleted := false, createdAt := 2 }], catMatches := [{ id := "m1", matchCatId := "cB", userCatId := "cA", message := "hi", status := "waiting", issuedBy := "u1", createdAt := 3 }] } "u1")).length = 0 → rs = []) ∧
      (∀ r ∈ rs, ∃ mm mc uc, mm ∈ ({ cats := [{ id := "cA", name := "A", race := "Persian", sex := "male", ageInMonth := 2, description := "a", imageUrls := ["u"], hasMatched := false, ownedById := "u1", deleted := false, createdAt := 1 }, { id := "cB", name := "B", race := "Birman", sex := "female", ageInMonth := 3, description := "b", imageUrls := ["v"], hasMatched := false, ownedById := "u2", deleted := false, createdAt := 2 }], catMatches := [{ id := "m1", matchCatId := "cB", userCatId := "cA", message := "hi", status := "waiting", issuedBy := "u1", createdAt := 3 }] } : DB).catMatches ∧
        findCat { cats := [{ id := "cA", name := "A", race := "Persian", sex := "male", ageInMonth := 2, description := "a", imageUrls := ["u"], hasMatched := false, ownedById := "u1", deleted := false, createdAt := 1 }, { id := "cB", name := "B", race := "Birman", sex := "female", ageInMonth := 3, description := "b", imageUrls := ["v"], hasMatched := false, ownedById := "u2", deleted := false, createdAt := 2 }], catMatches := [{ id := "m1", matchCatId := "cB", userCatId := "cA", message := "hi", status := "waiting", issuedBy := "u1", createdAt := 3 }] } mm.matchCatId = some mc ∧
        findCat { cats := [{ id := "cA", name := "A", race := "Persian", sex := "male", ageInMonth := 2, description := "a", imageUrls := ["u"], hasMatched := false, ownedById := "u1", deleted := false, createdAt := 1 }, { id := "cB", name := "B", race := "Birman", sex := "female", ageInMonth := 3, description := "b", imageUrls := ["v"], hasMatched := false, ownedById := "u2", deleted := false, createdAt := 2 }], catMatches := [{ id := "m1", matchCatId := "cB", userCatId := "cA", message := "hi", status := "waiting", issuedBy := "u1", createdAt := 3 }] } mm.userCatId = some uc ∧
        r = rowToResponse ⟨mm, mc, uc⟩ ∧
        r.MatchCat = catToResponse mc ∧ r.UserCat = catToResponse uc) :=
  c5_listing_counts { cats := [{ id := "cA", name := "A", race := "Persian", sex := "male", ageInMonth := 2, description := "a", imageUrls := ["u"], hasMatched := false, ownedById := "u1", deleted := false, createdAt := 1 }, { id := "cB", name := "B", race := "Birman", sex := "female", ageInMonth := 3, description := "b", imageUrls := ["v"], hasMatched := false, ownedById := "u2", deleted := false, createdAt := 2 }], catMatches := [{ id := "m1", matchCatId := "cB", userCatId := "cA", message := "hi", status := "waiting", issuedBy := "u1", createdAt := 3 }] } "u1" (by decide)

/-- Every cat the listing returns passed the deleted = false filter and is a stored row. -/
theorem getAllCats_not_deleted (db : DB) (p : Cat → Bool) (off lim : Option Nat)
    {c : Cat} (hc : c ∈ GetAllCats db p off lim) : c.deleted = false ∧ c ∈ db.cats := by
  unfold GetAllCats at hc
  have hsorted : c ∈ (db.cats.filter (fun c => c.deleted == false && p c)).mergeSort
      (fun a b => b.createdAt ≤ a.createdAt) := by
    cases off with
    | none =>
      cases lim with
      | none => exact hc
      | some l => exact List.take_subset l _ hc
    | some o =>
      cases lim with
      | none => exact List.drop_subset o _ hc
      | some l => exact List.drop_subset o _ (List.take_subset l _ hc)
  have hfil : c ∈ db.cats.filter (fun c => c.deleted == false && p c) :=
    (List.mergeSort_perm _ _).mem_iff.mp hsorted
  obtain ⟨hmem, hpred⟩ := List.mem_filter.mp hfil
  simp only [Bool.and_eq_true, beq_iff_eq] at hpred
  exact ⟨hpred.1, hmem⟩

/-- Invariant tracked across subsequent writes: every row carrying the id is flagged
deleted. -/
def AllDeleted (db : DB) (catId : String) : Prop :=
  ∀ c ∈ db.cats, c.id = catId → c.deleted = true

/-- DeleteCat establishes the invariant for its own id. -/
theorem allDeleted_deleteCat_self (db : DB) (catId : String) :
    AllDeleted (DeleteCat db catId) catId := by
  intro c hc hid
  unfold DeleteCat at hc
  simp only [List.mem_map] at hc
  obtain ⟨a, ha, hfa⟩ := hc
  by_cases h : (a.id == catId) = true
  · rw [if_pos h] at hfa
    rw [← hfa]
  · rw [if_neg h] at hfa
    subst hfa
    exact absurd (beq_iff_eq.mpr hid) h

/-- UpdateCat touches neither ids nor the deleted flag, preserving the invariant. -/
theorem allDeleted_updateCat (db : DB) (catId : String) (cat : Cat)
    (h : AllDeleted db catId) : AllDeleted (UpdateCat db cat) catId := by
  intro c hc hid
  unfold UpdateCat at hc
  simp only [List.mem_map] at hc
  obtain ⟨a, ha, hfa⟩ := hc
  by_cases hcase : (a.id == cat.id) = true
  · rw [if_pos hcase] at hfa
    subst hfa
    exact h a ha hid
  · rw [if_neg hcase] at hfa
    subst hfa
    exact h a ha hid

/-- A later DeleteCat only sets more deleted flags, preserving the invariant. -/
theorem allDeleted_deleteCat (db : DB) (catId i : String)
    (h : AllDeleted db catId) : AllDeleted (DeleteCat db i) catId := by
  intro c hc hid
  unfold DeleteCat at hc
  simp only [List.mem_map] at hc
  obtain ⟨a, ha, hfa⟩ := hc
  by_cases hcase : (a.id == i) = true
  · rw [if_pos hcase] at hfa
    rw [← hfa]
  · rw [if_neg hcase] at hfa
    subst hfa
    exact h a ha hid

/-- The invariant survives any sequence of subsequent cat-table writes. -/
theorem allDeleted_applyCatWrites (catId : String) (ops : List CatWriteOp) :
    ∀ db : DB, AllDeleted db catId → AllDeleted (applyCatWrites db ops) catId := by
  induction ops with
  | nil => intro db h; exact h
  | cons op rest ih =>
    intro db h
    cases op with
    | upd cat => exact ih _ (allDeleted_updateCat db catId cat h)
    | del i => exact ih _ (allDeleted_deleteCat db catId i h)

/-- Cat-table writes never touch the cat_matches table. -/
theorem catMatches_applyCatWrites (ops : List CatWriteOp) :
    ∀ db : DB, (applyCatWrites db ops).catMatches = db.catMatches := by
  induction ops with
  | nil => intro db; rfl
  | cons op rest ih =>
    intro db
    cases op with
    | upd cat => exact ih (UpdateCat db cat)
    | del i => exact ih (DeleteCat db i)

/-- C9: DeleteCat removes no row — it flips the deleted flag, preserving ids, row count
and the matches table; every listed cat has deleted = false; and after DeleteCat(catId),
through any further sequence of cat updates and soft deletes, no listing ever shows a
cat with that id while the matches table is untouched. -/
theorem c9_soft_delete_invariant (db : DB) (catId : String) (p : Cat → Bool)
    (off lim : Option Nat) (ops : List CatWriteOp) :
    ((DeleteCat db catId).cats.map (fun c => c.id) = db.cats.map (fun c => c.id)) ∧
    (DeleteCat db catId).cats.length = db.cats.length ∧
    (DeleteCat db catId).catMatches = db.catMatches ∧
    (∀ c ∈ GetAllCats db p off lim, c.deleted = false) ∧
    (∀ c ∈ GetAllCats (applyCatWrites (DeleteCat db catId) ops) p off lim,
      c.id ≠ catId) ∧
    (applyCatWrites (DeleteCat db catId) ops).catMatches = db.catMatches := by
  refine ⟨?_, ?_, rfl, ?_, ?_, ?_⟩
  · unfold DeleteCat
    rw [List.map_map]
    apply List.map_congr_left
    intro a ha
    simp only [Function.comp]
    split <;> rfl
  · unfold DeleteCat
    exact List.length_map _ _
  · intro c hc
    exact (getAllCats_not_deleted db p off lim hc).1
  · intro c hc hid
    have hinv : AllDeleted (applyCatWrites (DeleteCat db catId) ops) catId :=
      allDeleted_applyCatWrites catId ops _ (allDeleted_deleteCat_self db catId)
    obtain ⟨hdel, hmem⟩ := getAllCats_not_deleted _ p off lim hc
    have := hinv c hmem hid
    rw [hdel] at this
    exact absurd this (by simp)
  · rw [catMatches_applyCatWrites]
    rfl

/-- The operator character a regexp match yields is from the [>=<] class. -/
theorem findOprNumber_opr (cs : List Char) (c : Char) (ds : List Char)
    (h : findOprNumber cs = some (c, ds)) : isOprChar c = true := by
  induction cs with
  | nil => simp [findOprNumber] at h
  | cons a t ih =>
    rw [findOprNumber] at h
    by_cases ho : isOprChar a = true
    · rw [if_pos ho] at h
      by_cases he : (t.takeWhile isDigitChar).isEmpty = true
      · rw [if_pos he] at h
        exact ih h
      · rw [if_neg he] at h
        injection h with h
        rw [← (Prod.mk.injEq ..).mp h |>.1]
        exact ho
    · rw [if_neg ho] at h
      exact ih h

/-- Packaging of the template shape from a concatenation-prefix equation. -/
theorem isFilterTemplate_of_eq (col op : String) {pre : String}
    (hcol : col ∈ allowedColumns) (hop : op ∈ allowedOps)
    (hpre : col ++ " " ++ op ++ " $" = pre) (n : Nat) :
    IsFilterTemplate (pre ++ toString n) :=
  ⟨col, op, n, hcol, hop, by rw [← hpre]⟩

/-- The singleton string of a [>=<] character is one of the fixed operators. -/
theorem singleton_opr_mem (c : Char) (h : isOprChar c = true) :
    String.singleton c ∈ allowedOps := by
  rw [isOprChar] at h
  simp only [Bool.or_eq_true, beq_iff_eq] at h
  rcases h with (h | h) | h <;> subst h <;> decide

/-- Packaging of the pagination template shape. -/
theorem isLimitOffsetTemplate_of_eq {pre kw : String} (hkw : kw ∈ ["limit", "offset"])
    (hpre : kw ++ " $" = pre) (n : Nat) : IsLimitOffsetTemplate (pre ++ toString n) :=
  ⟨kw, n, hkw, by rw [← hpre]⟩

/-- One loop iteration either leaves each clause list unchanged or appends to it a
single fragment drawn from the enumerated templates. -/
theorem processParam_frag (uuidParse : String → Bool) (userId : String)
    (acc : List String × List String × List String) (kv : String × String) :
    ((processParam uuidParse userId acc kv).1 = acc.1 ∨
      ∃ s, (processParam uuidParse userId acc kv).1 = acc.1 ++ [s] ∧ IsFilterTemplate s) ∧
    ((processParam uuidParse userId acc kv).2.1 = acc.2.1 ∨
      ∃ s, (processParam uuidParse userId acc kv).2.1 = acc.2.1 ++ [s] ∧
        IsLimitOffsetTemplate s) := by
  obtain ⟨k, v⟩ := kv
  by_cases hmem : (CatQueryParams.contains k) = true
  · have hk : k = "id" ∨ k = "race" ∨ k = "sex" ∨ k = "hasMatched" ∨ k = "ageInMonth" ∨
        k = "owned" ∨ k = "search" ∨ k = "limit" ∨ k = "offset" := by
      simpa [CatQueryParams] using hmem
    rcases hk with rfl | rfl | rfl | rfl | rfl | rfl | rfl | rfl | rfl
    · -- id
      by_cases hv : v.length < 1
      · refine ⟨Or.inl ?_, Or.inl ?_⟩ <;> simp [processParam, CatQueryParams, hv]
      · by_cases hu : uuidParse v = false
        · refine ⟨Or.inl ?_, Or.inl ?_⟩ <;> simp [processParam, CatQueryParams, hv, hu]
        · have hut : uuidParse v = true := by
            revert hu; cases uuidParse v <;> simp
          refine ⟨Or.inr ⟨"id" ++ " = $" ++ toString (acc.2.2.length + 1), ?_, ?_⟩,
            Or.inl ?_⟩
          · simp [processParam, CatQueryParams, hv, hut]
          · exact isFilterTemplate_of_eq "id" "=" (by decide) (by decide)
              (show ("id" : String) ++ " " ++ "=" ++ " $" = "id" ++ " = $" from by decide) _
          · simp [processParam, CatQueryParams, hv, hut]
    · -- race
      by_cases hv : v.length < 1
      · refine ⟨Or.inl ?_, Or.inl ?_⟩ <;> simp [processParam, CatQueryParams, hv]
      · refine ⟨Or.inr ⟨"race" ++ " = $" ++ toString (acc.2.2.length + 1), ?_, ?_⟩,
          Or.inl ?_⟩
        · simp [processParam, CatQueryParams, hv]
        · exact isFilterTemplate_of_eq "race" "=" (by decide) (by decide)
            (show ("race" : String) ++ " " ++ "=" ++ " $" = "race" ++ " = $" from by decide) _
        · simp [processParam, CatQueryParams, hv]
    · -- sex
      by_cases hv : v.length < 1
      · refine ⟨Or.inl ?_, Or.inl ?_⟩ <;> simp [processParam, CatQueryParams, hv]
      · refine ⟨Or.inr ⟨"sex" ++ " = $" ++ toString (acc.2.2.length + 1), ?_, ?_⟩,
          Or.inl ?_⟩
        · simp [processParam, CatQueryParams, hv]
        · exact isFilterTemplate_of_eq "sex" "=" (by decide) (by decide)
            (show ("sex" : String) ++ " " ++ "=" ++ " $" = "sex" ++ " = $" from by decide) _
        · simp [processParam, CatQueryParams, hv]
    · -- hasMatched
      by_cases hv : v.length < 1
      · refine ⟨Or.inl ?_, Or.inl ?_⟩ <;> simp [processParam, CatQueryParams, hv]
      · refine ⟨Or.inr ⟨"has_matched" ++ " = $" ++ toString (acc.2.2.length + 1), ?_, ?_⟩,
          Or.inl ?_⟩
        · simp [processParam, CatQueryParams, hv]
        · exact isFilterTemplate_of_eq "has_matched" "=" (by decide) (by decide)
            (show ("has_matched" : String) ++ " " ++ "=" ++ " $" = "has_matched" ++ " = $"
              from by decide) _
        · simp [processParam, CatQueryParams, hv]
    · -- ageInMonth
      by_cases hv : v.length < 1
      · refine ⟨Or.inl ?_, Or.inl ?_⟩ <;> simp [processParam, CatQueryParams, hv]
      · cases hf : findOprNumber v.data with
        | none =>
          refine ⟨Or.inl ?_, Or.inl ?_⟩ <;>
            simp [processParam, CatQueryParams, hv, hf]
        | some od =>
          refine ⟨Or.inr ⟨"age_in_month " ++ String.singleton od.1 ++ " $" ++
              toString (acc.2.2.length + 1), ?_, ?_⟩, Or.inl ?_⟩
          · simp [processParam, CatQueryParams, hv, hf]
          · exact isFilterTemplate_of_eq "age_in_month" (String.singleton od.1) (by decide)
              (singleton_opr_mem od.1 (findOprNumber_opr v.data od.1 od.2
                (by rw [hf])))
              (by rw [show ("age_in_month" ++ " " : String) = "age_in_month "
                  from by decide]) _
          · simp [processParam, CatQueryParams, hv, hf]
    · -- owned
      by_cases hv : v.length < 1
      · refine ⟨Or.inl ?_, Or.inl ?_⟩ <;> simp [processParam, CatQueryParams, hv]
      · by_cases hvf : v = "false"
        · refine ⟨Or.inr ⟨"owned_by_id != $" ++ toString (acc.2.2.length + 1), ?_, ?_⟩,
            Or.inl ?_⟩
          · simp [processParam, CatQueryParams, hv, hvf,
              show ¬(("false" : String).length = 0) from by decide]
          · exact isFilterTemplate_of_eq "owned_by_id" "!=" (by decide) (by decide)
              (show ("owned_by_id" : String) ++ " " ++ "!=" ++ " $" = "owned_by_id != $"
                from by decide) _
          · simp [processParam, CatQueryParams, hv, hvf,
              show ¬(("false" : String).length = 0) from by decide]
        · by_cases hvt : v = "true"
          · refine ⟨Or.inr ⟨"owned_by_id = $" ++ toString (acc.2.2.length + 1), ?_, ?_⟩,
              Or.inl ?_⟩
            · simp [processParam, CatQueryParams, hv, hvf, hvt,
                show ¬(("true" : String).length = 0) from by decide]
            · exact isFilterTemplate_of_eq "owned_by_id" "=" (by decide) (by decide)
                (show ("owned_by_id" : String) ++ " " ++ "=" ++ " $" = "owned_by_id = $"
                  from by decide) _
            · simp [processParam, CatQueryParams, hv, hvf, hvt,
                show ¬(("true" : String).length = 0) from by decide]
          · refine ⟨Or.inl ?_, Or.inl ?_⟩ <;>
              simp [processParam, CatQueryParams, hv, hvf, hvt]
    · -- search
      by_cases hv : v.length < 1
      · refine ⟨Or.inl ?_, Or.inl ?_⟩ <;> simp [processParam, CatQueryParams, hv]
      · refine ⟨Or.inr ⟨"name" ++ " = $" ++ toString (acc.2.2.length + 1), ?_, ?_⟩,
          Or.inl ?_⟩
        · simp [processParam, CatQueryParams, hv]
        · exact isFilterTemplate_of_eq "name" "=" (by decide) (by decide)
            (show ("name" : String) ++ " " ++ "=" ++ " $" = "name" ++ " = $" from by decide) _
        · simp [processParam, CatQueryParams, hv]
    · -- limit
      refine ⟨Or.inl ?_, Or.inr ⟨"limit" ++ " $" ++ toString (acc.2.2.length + 1), ?_, ?_⟩⟩
      · simp [processParam, CatQueryParams]
      · simp [processParam, CatQueryParams]
      · exact isLimitOffsetTemplate_of_eq (by decide)
          (show ("limit" : String) ++ " $" = "limit" ++ " $" from rfl) _
    · -- offset
      refine ⟨Or.inl ?_, Or.inr ⟨"offset" ++ " $" ++ toString (acc.2.2.length + 1), ?_, ?_⟩⟩
      · simp [processParam, CatQueryParams]
      · simp [processParam, CatQueryParams]
      · exact isLimitOffsetTemplate_of_eq (by decide)
          (show ("offset" : String) ++ " $" = "offset" ++ " $" from rfl) _
  · have hk : k ∉ CatQueryParams := by simpa using hmem
    have hl1 : (k == "limit") = false := by
      rw [beq_eq_false_iff_ne]
      rintro rfl
      exact hk (by decide)
    have hl2 : (k == "offset") = false := by
      rw [beq_eq_false_iff_ne]
      rintro rfl
      exact hk (by decide)
    have hcf : (CatQueryParams.contains k) = false := Bool.not_eq_true _ |>.mp hmem
    refine ⟨Or.inl ?_, Or.inl ?_⟩ <;> simp [processParam, hl1, hl2, hk]

/-- Clause-list invariance of the whole fold: every accumulated fragment is from the
enumerated templates. -/
theorem foldl_templates (uuidParse : String → Bool) (userId : String)
    (qp : List (String × String)) :
    ∀ acc : List String × List String × List String,
      (∀ s ∈ acc.1, IsFilterTemplate s) → (∀ s ∈ acc.2.1, IsLimitOffsetTemplate s) →
      (∀ s ∈ (qp.foldl (processParam uuidParse userId) acc).1, IsFilterTemplate s) ∧
      (∀ s ∈ (qp.foldl (processParam uuidParse userId) acc).2.1,
        IsLimitOffsetTemplate s) := by
  induction qp with
  | nil => intro acc h1 h2; exact ⟨h1, h2⟩
  | cons kv rest ih =>
    intro acc h1 h2
    rw [List.foldl_cons]
    apply ih
    · obtain hw | ⟨s, hs, hts⟩ := (processParam_frag uuidParse userId acc kv).1
      · rw [hw]; exact h1
      · rw [hs]
        intro x hx
        rcases List.mem_append.mp hx with hx | hx
        · exact h1 x hx
        · rw [List.mem_singleton.mp hx]; exact hts
    · obtain hw | ⟨s, hs, hts⟩ := (processParam_frag uuidParse userId acc kv).2
      · rw [hw]; exact h2
      · rw [hs]
        intro x hx
        rcases List.mem_append.mp hx with hx | hx
        · exact h2 x hx
        · rw [List.mem_singleton.mp hx]; exact hts

set_option maxHeartbeats 1600000 in
/-- Parameters of the same shape contribute the same clause text and the same number of
bound arguments, whatever the argument values. -/
theorem processParam_abs_eq (uuidParse : String → Bool) (userId : String)
    (kv1 kv2 : String × String) (habs : paramAbs uuidParse kv1 = paramAbs uuidParse kv2)
    (acc1 acc2 : List String × List String × List String)
    (hw : acc1.1 = acc2.1) (hlo : acc1.2.1 = acc2.2.1)
    (hlen : acc1.2.2.length = acc2.2.2.length) :
    (processParam uuidParse userId acc1 kv1).1 =
      (processParam uuidParse userId acc2 kv2).1 ∧
    (processParam uuidParse userId acc1 kv1).2.1 =
      (processParam uuidParse userId acc2 kv2).2.1 ∧
    (processParam uuidParse userId acc1 kv1).2.2.length =
      (processParam uuidParse userId acc2 kv2).2.2.length := by
  obtain ⟨k1, v1⟩ := kv1
  obtain ⟨k2, v2⟩ := kv2
  have hkey : k1 = k2 := congrArg ParamAbs.key habs
  subst hkey
  have hempty : decide (v1.length < 1) = decide (v2.length < 1) :=
    congrArg ParamAbs.isEmptyV habs
  have huuid : uuidParse v1 = uuidParse v2 := congrArg ParamAbs.uuidOkV habs
  have hopr : (findOprNumber v1.toList).map Prod.fst =
      (findOprNumber v2.toList).map Prod.fst := congrArg ParamAbs.oprV habs
  have htv : (v1 == "true") = (v2 == "true") := congrArg ParamAbs.isTrueV habs
  have hfv : (v1 == "false") = (v2 == "false") := congrArg ParamAbs.isFalseV habs
  have htv2 : (v1 != "true") = (v2 != "true") := by
    simp only [bne]
    rw [htv]
  have hfv2 : (v1 != "false") = (v2 != "false") := by
    simp only [bne]
    rw [hfv]
  cases o1 : findOprNumber v1.toList with
  | none =>
    cases o2 : findOprNumber v2.toList with
    | none =>
      simp only [processParam, o1, o2]
      rw [hempty, huuid, htv2, hfv2, hfv, hw, hlo, hlen]
      refine ⟨?_, ?_, ?_⟩ <;> (repeat' split) <;> simp [hlen]
    | some od2 =>
      rw [o1, o2] at hopr
      simp at hopr
  | some od1 =>
    cases o2 : findOprNumber v2.toList with
    | none =>
      rw [o1, o2] at hopr
      simp at hopr
    | some od2 =>
      have hod : od1.1 = od2.1 := by
        rw [o1, o2] at hopr
        simpa using hopr
      simp only [processParam, o1, o2]
      rw [hempty, huuid, htv2, hfv2, hfv, hw, hlo, hlen, hod]
      refine ⟨?_, ?_, ?_⟩ <;> (repeat' split) <;> simp [hlen]

/-- Shape-equal parameter lists drive the fold to identical clause text. -/
theorem foldl_abs_eq (uuidParse : String → Bool) (userId : String) :
    ∀ qp1 qp2 : List (String × String),
      qp1.map (paramAbs uuidParse) = qp2.map (paramAbs uuidParse) →
      ∀ acc1 acc2 : List String × List String × List String,
        acc1.1 = acc2.1 → acc1.2.1 = acc2.2.1 → acc1.2.2.length = acc2.2.2.length →
        (qp1.foldl (processParam uuidParse userId) acc1).1 =
          (qp2.foldl (processParam uuidParse userId) acc2).1 ∧
        (qp1.foldl (processParam uuidParse userId) acc1).2.1 =
          (qp2.foldl (processParam uuidParse userId) acc2).2.1 := by
  intro qp1
  induction qp1 with
  | nil =>
    intro qp2 hmap acc1 acc2 hw hlo hlen
    cases qp2 with
    | nil => exact ⟨hw, hlo⟩
    | cons b u => simp at hmap
  | cons a t ih =>
    intro qp2 hmap acc1 acc2 hw hlo hlen
    cases qp2 with
    | nil => simp at hmap
    | cons b u =>
      simp only [List.map_cons, List.cons.injEq] at hmap
      obtain ⟨h1, h2⟩ := hmap
      rw [List.foldl_cons, List.foldl_cons]
      obtain ⟨hw2, hlo2, hlen2⟩ :=
        processParam_abs_eq uuidParse userId a b h1 acc1 acc2 hw hlo hlen
      exact ih u h2 _ _ hw2 hlo2 hlen2

/-- C8 as stated is false at a concrete input: the parameter maps {owned: true} and
{owned: maybe} have the same keys and no ageInMonth operator, yet yield different SQL
text, because clause emission also depends on the values passing the per-key validity
filters (here the owned boolean check). -/
theorem c8_counterexample :
    (validateGetAllCatsQueryParams (fun _ => true) [("owned", "true")] "u").1 ≠
      (validateGetAllCatsQueryParams (fun _ => true) [("owned", "maybe")] "u").1 := by
  decide

/-- C8 amended: every emitted WHERE fragment is an allow-listed internal column with an
operator from the fixed set and a placeholder, every pagination fragment a fixed keyword
with a placeholder, so parameter values reach only the bound-argument list; and two
parameter lists of the same shape — same keys in order, agreeing per key on value
emptiness, on whether an id value parses as a UUID, on the extracted ageInMonth
operator, and on which boolean literal an owned value is — produce identical WHERE and
limit/offset clause text, whatever their values. -/
theorem c8_filter_builder_templates (uuidParse : String → Bool) (userId : String)
    (qp qp1 qp2 : List (String × String))
    (hshape : qp1.map (paramAbs uuidParse) = qp2.map (paramAbs uuidParse)) :
    (∀ s ∈ (validateGetAllCatsQueryParams uuidParse qp userId).1, IsFilterTemplate s) ∧
    (∀ s ∈ (validateGetAllCatsQueryParams uuidParse qp userId).2.1,
      IsLimitOffsetTemplate s) ∧
    (validateGetAllCatsQueryParams uuidParse qp1 userId).1 =
      (validateGetAllCatsQueryParams uuidParse qp2 userId).1 ∧
    (validateGetAllCatsQueryParams uuidParse qp1 userId).2.1 =
      (validateGetAllCatsQueryParams uuidParse qp2 userId).2.1 := by
  have ht := foldl_templates uuidParse userId qp ([], [], []) (by simp) (by simp)
  have hd := foldl_abs_eq uuidParse userId qp1 qp2 hshape ([], [], []) ([], [], [])
    rfl rfl rfl
  exact ⟨ht.1, ht.2, hd.1, hd.2⟩

/-- Witness for C8 at concrete parameter lists: a mixed filter list is template-only,
and two shape-equal owned/search lists with different search values yield the same
clause text. -/
theorem c8_filter_builder_templates_witness :
    (∀ s ∈ (validateGetAllCatsQueryParams (fun _ => true)
        [("race", "Persian"), ("ageInMonth", ">5"), ("limit", "")] "u").1,
      IsFilterTemplate s) ∧
    (∀ s ∈ (validateGetAllCatsQueryParams (fun _ => true)
        [("race", "Persian"), ("ageInMonth", ">5"), ("limit", "")] "u").2.1,
      IsLimitOffsetTemplate s) ∧
    (validateGetAllCatsQueryParams (fun _ => true)
        [("owned", "true"), ("search", "kitty")] "u").1 =
      (validateGetAllCatsQueryParams (fun _ => true)
        [("owned", "true"), ("search", "mia")] "u").1 ∧
    (validateGetAllCatsQueryParams (fun _ => true)
        [("owned", "true"), ("search", "kitty")] "u").2.1 =
      (validateGetAllCatsQueryParams (fun _ => true)
        [("owned", "true"), ("search", "mia")] "u").2.1 :=
  c8_filter_builder_templates (fun _ => true) "u"
    [("race", "Persian"), ("ageInMonth", ">5"), ("limit", "")]
    [("owned", "true"), ("search", "kitty")] [("owned", "true"), ("search", "mia")]
    (by decide)

end CatsSocial
